import Mathlib

set_option maxRecDepth 4000

namespace CloudPatterns

/-!
Shallow embedding of the Cloud-Design-Patterns gateway
(src/gatekeeper.py, src/trusted_host.py, src/proxy.py).

Strings are modelled as `String` / `List Char`, wall-clock times as `ℚ`,
Python dicts keyed by client ip as functions `String → List ℚ`.
-/

/-! ### String helpers (models of Python `in`, `startswith`, and the regex forms used) -/

/-- `listStartsWith cs pat` : `cs` begins with `pat` (Python `startswith`). -/
def listStartsWith : List Char → List Char → Bool
  | _, [] => true
  | [], _ :: _ => false
  | a :: restA, b :: restB => a == b && listStartsWith restA restB

/-- `hasSub cs pat` : `pat` occurs as a contiguous substring of `cs` (Python `pat in cs`). -/
def hasSub : List Char → List Char → Bool
  | [], pat => listStartsWith [] pat
  | c :: rest, pat => listStartsWith (c :: rest) pat || hasSub rest pat

/-- All suffixes of a list, used to enumerate the splits of a regex `.*`. -/
def tailsOf : List Char → List (List Char)
  | [] => [[]]
  | c :: cs => (c :: cs) :: tailsOf cs

/-- Python regex word character `\w` (ASCII): letters, digits, underscore. -/
def isWordChar (c : Char) : Bool := c.isAlphanum || c == '_'

/-- A `\b` boundary holds just before a word character when the previous
character (if any) is not a word character. -/
def boundaryL : Option Char → Bool
  | none => true
  | some c => !isWordChar c

/-- A `\b` boundary holds just after a word character when the next
character (if any) is not a word character. -/
def boundaryR : List Char → Bool
  | [] => true
  | c :: _ => !isWordChar c

/-- Run a positional matcher at every position of the string, tracking the
previous character (model of `re.search` scanning). -/
def scanWithPrev (p : Option Char → List Char → Bool) : Option Char → List Char → Bool
  | prev, [] => p prev []
  | prev, c :: cs => p prev (c :: cs) || scanWithPrev p (some c) cs

/-- Python `re.search(rf'\b{kw}\b', s)` for a keyword starting and ending in
word characters. -/
def containsWord (kw : List Char) (cs : List Char) : Bool :=
  scanWithPrev
    (fun prev rest => boundaryL prev && listStartsWith rest kw && boundaryR (rest.drop kw.length))
    none cs

/-- Python `str.upper` (ASCII). -/
def toUpperList (cs : List Char) : List Char := cs.map Char.toUpper

/-- Python `.replace("\n", " ")`. -/
def newlineToSpace (cs : List Char) : List Char := cs.map (fun c => if c == '\n' then ' ' else c)

/-- Python `str.strip()`: drop whitespace at both ends. -/
def stripList (cs : List Char) : List Char :=
  ((cs.dropWhile Char.isWhitespace).reverse.dropWhile Char.isWhitespace).reverse

/-! ### QueryValidator (src/gatekeeper.py lines 61-135) -/

/-- `QueryValidator.dangerous_keywords`. -/
def dangerous_keywords : List String :=
  ["DROP", "DELETE", "TRUNCATE", "ALTER",
   "RENAME", "MODIFY", "SHUTDOWN", "GRANT",
   "REVOKE", "ROLE", "BACKUP", "RESTORE",
   "CREATE TABLE"]

/-- `QueryValidator.valid_commands`. -/
def valid_commands : List String :=
  ["SELECT", "INSERT", "UPDATE", "CREATE",
   "SHOW", "DESCRIBE", "EXPLAIN", "USE"]

/-- `QueryValidator.injection_patterns` (note: includes ";" and the two
comment halves). -/
def injection_patterns : List String :=
  ["--", ";", "/*", "*/", "@@", "@",
   "UNION", "SLEEP", "WAITFOR", "DELAY",
   "IF(", "WHEN"]

/-- Matcher for the attack regex `\bOR\s+1\s*=\s*1\b` at one position. -/
def att1At (prev : Option Char) (cs : List Char) : Bool :=
  boundaryL prev &&
  match cs with
  | 'O' :: 'R' :: rest =>
    !(rest.takeWhile Char.isWhitespace).isEmpty &&
    (match rest.dropWhile Char.isWhitespace with
     | '1' :: r2 =>
       (match r2.dropWhile Char.isWhitespace with
        | '=' :: r4 =>
          (match r4.dropWhile Char.isWhitespace with
           | '1' :: r6 => boundaryR r6
           | _ => false)
        | _ => false)
     | _ => false)
  | _ => false

/-- A single or double quote character (the class `['\x22']` of the regex). -/
def quoteChar (c : Char) : Bool := c == '\'' || c == '"'

/-- Tail of the attack regex `['\x22]=['\x22].*['\x22]\b`: a quote, `=`, a quote,
then any run and a closing quote followed by a word character (the trailing
`\b` after a non-word quote requires a word character next). -/
def att2B : List Char → Bool
  | c1 :: '=' :: c2 :: rest =>
    quoteChar c1 && quoteChar c2 &&
    (tailsOf rest).any (fun t =>
      match t with
      | c :: r =>
        quoteChar c &&
        (match r with
         | rc :: _ => isWordChar rc
         | [] => false)
      | [] => false)
  | _ => false

/-- Matcher for `\bOR\s+['\x22].*['\x22]=['\x22].*['\x22]\b` at one position. -/
def att2At (prev : Option Char) (cs : List Char) : Bool :=
  boundaryL prev &&
  match cs with
  | 'O' :: 'R' :: rest =>
    !(rest.takeWhile Char.isWhitespace).isEmpty &&
    (match rest.dropWhile Char.isWhitespace with
     | q1 :: afterQ1 => quoteChar q1 && (tailsOf afterQ1).any att2B
     | [] => false)
  | _ => false

/-- Matcher for `\bXP_\w+\b` at one position: a word start, literal `XP_`,
then at least one word character (the maximal `\w+` run always ends at a
boundary). -/
def xpAt (prev : Option Char) (cs : List Char) : Bool :=
  boundaryL prev &&
  match cs with
  | 'X' :: 'P' :: '_' :: c :: _ => isWordChar c
  | _ => false

/-- `QueryValidator.common_attacks`: the four attack regexes searched over the
normalized upper-case query.  They all produce the same rejection message, so
they are combined with disjunction. -/
def matchesCommonAttack (cs : List Char) : Bool :=
  scanWithPrev att1At none cs ||
  scanWithPrev att2At none cs ||
  hasSub cs "INFORMATION_SCHEMA.".toList ||
  hasSub cs "SYS.".toList ||
  containsWord "EXEC".toList cs ||
  scanWithPrev xpAt none cs

/-- `QueryValidator.validate_query` (src/gatekeeper.py lines 90-135).
Returns `(is_valid, error_message)`. -/
def validate_query (q : String) : Bool × Option String :=
  let cs := q.toList
  if cs.isEmpty then (false, some "Empty query")
  else
    let quL := stripList (newlineToSpace (toUpperList cs))
    if cs.length > 5000 then (false, some "Query exceeds maximum length")
    else if hasSub cs.dropLast [';'] then (false, some "Multiple statements are not allowed")
    else if hasSub cs "--".toList || hasSub cs "/*".toList then
      (false, some "Comments are not allowed in queries")
    else
      match dangerous_keywords.find? (fun kw => containsWord kw.toList quL) with
      | some kw => (false, some ("Query contains forbidden keyword: " ++ kw))
      | none =>
        if !(valid_commands.any (fun c => listStartsWith quL c.toList)) then
          (false, some "Query must start with a valid SQL command")
        else
          match injection_patterns.find? (fun p => hasSub quL p.toList) with
          | some p => (false, some ("Query contains suspicious pattern: " ++ p))
          | none =>
            if matchesCommonAttack quL then (false, some "Query contains suspicious pattern")
            else (true, none)

/-- C1: the code rejects the query `SELECT 1;`, whose only anomaly is a single
final semicolon, with the injection-pattern error for `;` — even though the
multiple-statement check (`";" in query[:-1]`) deliberately allows a trailing
semicolon.  This contradicts the claim (and the code's own comment) that a
single semicolon as the final character never causes rejection. -/
theorem validate_query_trailing_semicolon :
    validate_query "SELECT 1;" = (false, some "Query contains suspicious pattern: ;") := by
  decide

/-! ### CircuitBreaker (src/gatekeeper.py lines 31-59; textually identical
class in src/trusted_host.py lines 29-57) -/

/-- The breaker state strings "closed" / "open" / "half-open". -/
inductive BState where
  | closed
  | opened
  | halfOpen
deriving DecidableEq, Repr

/-- The `CircuitBreaker` instance fields. -/
structure CircuitBreaker where
  failures : ℕ
  last_failure_time : ℚ
  state : BState
  threshold : ℕ
  timeout : ℚ
deriving DecidableEq, Repr

/-- `CircuitBreaker.__init__`. -/
def CircuitBreaker.init : CircuitBreaker :=
  { failures := 0, last_failure_time := 0, state := .closed, threshold := 5, timeout := 60 }

/-- `CircuitBreaker.record_failure`, with `time.time()` passed explicitly. -/
def record_failure (t : ℚ) (cb : CircuitBreaker) : CircuitBreaker :=
  let f := cb.failures + 1
  if f ≥ cb.threshold then
    { cb with failures := f, last_failure_time := t, state := .opened }
  else
    { cb with failures := f, last_failure_time := t }

/-- `CircuitBreaker.record_success`. -/
def record_success (cb : CircuitBreaker) : CircuitBreaker :=
  { cb with failures := 0, state := .closed }

/-- `CircuitBreaker.can_execute`, with `time.time()` passed explicitly.
Returns the boolean result together with the (possibly mutated) breaker. -/
def can_execute (t : ℚ) (cb : CircuitBreaker) : Bool × CircuitBreaker :=
  match cb.state with
  | .opened =>
    if t - cb.last_failure_time > cb.timeout then
      (true, { cb with state := .halfOpen })
    else
      (false, cb)
  | _ => (true, cb)

/-- One externally invocable breaker operation, tagged with its call time. -/
inductive BOp where
  | fail (t : ℚ)
  | success
  | canExec (t : ℚ)
deriving DecidableEq, Repr

/-- Apply one breaker operation. -/
def applyBOp (cb : CircuitBreaker) : BOp → CircuitBreaker
  | .fail t => record_failure t cb
  | .success => record_success cb
  | .canExec t => (can_execute t cb).2

/-- Run a sequence of breaker operations from the initial state. -/
def runB (ops : List BOp) : CircuitBreaker :=
  ops.foldl applyBOp CircuitBreaker.init

/-- The breaker state after the first `k` operations of a sequence. -/
def bstateAt (ops : List BOp) (k : ℕ) : BState :=
  (runB (ops.take k)).state

lemma runB_take_succ (ops : List BOp) (k : ℕ) (op : BOp) (hk : ops[k]? = some op) :
    runB (ops.take (k + 1)) = applyBOp (runB (ops.take k)) op := by
  rw [List.take_succ, hk]
  simp [runB, List.foldl_append]

/-- If the state is not closed before step `k` and closed after it, the `k`-th
operation must be `record_success`: neither `record_failure` nor `can_execute`
ever produces the closed state from a non-closed one. -/
lemma closed_step (ops : List BOp) (k : ℕ)
    (h1 : bstateAt ops k ≠ .closed) (h2 : bstateAt ops (k + 1) = .closed) :
    ops[k]? = some .success := by
  cases hk : ops[k]? with
  | none =>
    exfalso
    have heq : ops.take (k + 1) = ops.take k := by
      rw [List.take_succ, hk]; simp
    rw [bstateAt, heq] at h2
    exact h1 h2
  | some op =>
    cases op with
    | success => rfl
    | fail t =>
      exfalso
      rw [bstateAt, runB_take_succ ops k _ hk] at h2
      simp only [applyBOp, record_failure] at h2
      split at h2 <;> simp_all [bstateAt]
    | canExec t =>
      exfalso
      rw [bstateAt, runB_take_succ ops k _ hk] at h2
      simp only [applyBOp, can_execute] at h2
      rcases hs : (runB (ops.take k)).state with _ | _ | _ <;>
        rw [hs] at h2 <;> simp_all [bstateAt] <;> split at h2 <;> simp_all

/-- C3 (amended): whenever the breaker state is open at step `i` and closed at
a later step `j`, some operation strictly between them is a `record_success`
call — but that success may fire directly from the open state, so no
intermediate half-open state is guaranteed. -/
theorem breaker_open_to_closed_via_success (ops : List BOp) (i j : ℕ) (hij : i ≤ j)
    (hopen : bstateAt ops i = .opened) (hclosed : bstateAt ops j = .closed) :
    ((List.range j).any (fun k => decide (i ≤ k ∧ ops[k]? = some BOp.success))) = true := by
  induction j with
  | zero =>
    exfalso
    have hi : i = 0 := Nat.le_zero.mp hij
    rw [hi] at hopen
    simp [bstateAt, runB, CircuitBreaker.init] at hopen
  | succ j ih =>
    have hne : i ≠ j + 1 := by
      intro h
      rw [h, hclosed] at hopen
      exact BState.noConfusion hopen
    have hij' : i ≤ j := Nat.lt_succ_iff.mp (Nat.lt_of_le_of_ne hij hne)
    by_cases hj : bstateAt ops j = .closed
    · have := ih hij' hj
      rw [List.range_succ, List.any_append]
      simp only [this, Bool.true_or]
    · have hop : ops[j]? = some .success := closed_step ops j hj hclosed
      rw [List.range_succ, List.any_append]
      have : (List.any [j] fun k => decide (i ≤ k ∧ ops[k]? = some BOp.success)) = true := by
        simp [hij', hop]
      simp only [this, Bool.or_true]

/-- Witness for the amended C3 theorem at a concrete trace: five failures
open the breaker, a direct `record_success` closes it. -/
theorem breaker_open_to_closed_via_success_witness :
    ((List.range 6).any (fun k => decide (5 ≤ k ∧
      [BOp.fail 0, BOp.fail 0, BOp.fail 0, BOp.fail 0, BOp.fail 0, BOp.success][k]?
        = some BOp.success))) = true :=
  breaker_open_to_closed_via_success
    [BOp.fail 0, BOp.fail 0, BOp.fail 0, BOp.fail 0, BOp.fail 0, BOp.success]
    5 6 (by decide) (by decide) (by decide)

/-- C3 counterexample to the claim as stated: after five failures the state is
open (step 5) and one `record_success` later it is closed (step 6), yet the
only intermediate step, step 5, is not half-open — the breaker moved
open→closed directly, with no intervening half-open state. -/
theorem breaker_direct_open_to_closed :
    bstateAt [BOp.fail 0, BOp.fail 0, BOp.fail 0, BOp.fail 0, BOp.fail 0, BOp.success] 5
      = BState.opened
    ∧ bstateAt [BOp.fail 0, BOp.fail 0, BOp.fail 0, BOp.fail 0, BOp.fail 0, BOp.success] 6
      = BState.closed
    ∧ bstateAt [BOp.fail 0, BOp.fail 0, BOp.fail 0, BOp.fail 0, BOp.fail 0, BOp.success] 5
      ≠ BState.halfOpen := by
  refine ⟨by decide, by decide, by decide⟩

/-- The breaker after five consecutive `record_failure` calls at the given
times, starting from the initial state. -/
def after_five_failures (t1 t2 t3 t4 t5 : ℚ) : CircuitBreaker :=
  record_failure t5 (record_failure t4 (record_failure t3
    (record_failure t2 (record_failure t1 CircuitBreaker.init))))

lemma after_five_failures_eq (t1 t2 t3 t4 t5 : ℚ) :
    after_five_failures t1 t2 t3 t4 t5 =
      { failures := 5, last_failure_time := t5, state := .opened, threshold := 5, timeout := 60 } := by
  simp [after_five_failures, record_failure, CircuitBreaker.init]

/-- C6: after 5 consecutive failures `can_execute` is false while at most the
60-second timeout has passed since the last failure; once strictly more than
60 seconds have elapsed the next `can_execute` returns true and moves the
state to half-open, and a subsequent `record_success` yields the closed state
with `failures = 0`. -/
theorem breaker_threshold_cycle (t1 t2 t3 t4 t5 u v : ℚ)
    (hu : u - t5 ≤ 60) (hv : 60 < v - t5) :
    (can_execute u (after_five_failures t1 t2 t3 t4 t5)).1 = false
    ∧ (can_execute v (after_five_failures t1 t2 t3 t4 t5)).1 = true
    ∧ ((can_execute v (after_five_failures t1 t2 t3 t4 t5)).2).state = .halfOpen
    ∧ (record_success (can_execute v (after_five_failures t1 t2 t3 t4 t5)).2).state = .closed
    ∧ (record_success (can_execute v (after_five_failures t1 t2 t3 t4 t5)).2).failures = 0 := by
  rw [after_five_failures_eq]
  have hnot : ¬ (u - t5 > 60) := by linarith
  refine ⟨?_, ?_, ?_, ?_, ?_⟩ <;>
    simp [can_execute, record_success, hnot, hv]

/-- Witness for C6 at concrete times: failures at times 0, check at 30
(rejected) and at 100 (admitted, half-open), then success closes. -/
theorem breaker_threshold_cycle_witness :
    (can_execute 30 (after_five_failures 0 0 0 0 0)).1 = false
    ∧ (can_execute 100 (after_five_failures 0 0 0 0 0)).1 = true
    ∧ ((can_execute 100 (after_five_failures 0 0 0 0 0)).2).state = .halfOpen
    ∧ (record_success (can_execute 100 (after_five_failures 0 0 0 0 0)).2).state = .closed
    ∧ (record_success (can_execute 100 (after_five_failures 0 0 0 0 0)).2).failures = 0 :=
  breaker_threshold_cycle 0 0 0 0 0 30 100 (by norm_num) (by norm_num)

/-- The invariant of claim C10: a breaker with `failures = 0` is closed. -/
def CBInv (cb : CircuitBreaker) : Prop := cb.failures = 0 → cb.state = .closed

/-- C10: the zero-failures-implies-closed invariant holds initially and is
preserved by `record_failure`, `record_success` and `can_execute`. -/
theorem breaker_invariant :
    CBInv CircuitBreaker.init
    ∧ ∀ (cb : CircuitBreaker) (t : ℚ), CBInv cb →
        CBInv (record_failure t cb)
        ∧ CBInv (record_success cb)
        ∧ CBInv ((can_execute t cb).2) := by
  constructor
  · intro _; rfl
  · intro cb t hinv
    refine ⟨?_, ?_, ?_⟩
    · intro h
      exfalso
      simp only [record_failure] at h
      split at h <;> simp_all
    · intro _
      rfl
    · intro h
      have hf : cb.failures = 0 := by
        simp only [can_execute] at h
        rcases hs : cb.state <;> rw [hs] at h <;> simp_all <;> split at h <;> simp_all
      have hc := hinv hf
      simp [can_execute, hc]

/-- Witness for C10 at the initial breaker and time 0. -/
theorem breaker_invariant_witness :
    CBInv (record_failure 0 CircuitBreaker.init)
    ∧ CBInv (record_success CircuitBreaker.init)
    ∧ CBInv ((can_execute 0 CircuitBreaker.init).2) :=
  breaker_invariant.2 CircuitBreaker.init 0 (fun _ => rfl)

/-! ### Sliding-window rate limiter (`_check_rate_limit`,
src/gatekeeper.py lines 147-153 with RATE_LIMIT 1000, and the identical
src/trusted_host.py lines 73-79 with RATE_LIMIT 2000; RATE_WINDOW 60). -/

/-- One `_check_rate_limit` call on one client's timestamp list: prune entries
older than the window, append the current time, allow iff the resulting count
is at most the limit.  Returns `(allowed, new list)`. -/
def rl_check (limit : ℕ) (window now : ℚ) (l : List ℚ) : Bool × List ℚ :=
  let updated := l.filter (fun t => now - t < window) ++ [now]
  (decide (updated.length ≤ limit), updated)

/-- Run a sequence of `_check_rate_limit` calls at the given times for one
client, collecting the returned booleans and the final list. -/
def runChecks (limit : ℕ) (window : ℚ) : List ℚ → List ℚ → List Bool × List ℚ
  | [], l => ([], l)
  | t :: ts, l =>
    let r := rl_check limit window t l
    let rest := runChecks limit window ts r.2
    (r.1 :: rest.1, rest.2)

/-- The Gatekeeper's rate-limit parameters. -/
def GK_RATE_LIMIT : ℕ := 1000

/-- The Trusted Host's rate-limit parameter. -/
def TH_RATE_LIMIT : ℕ := 2000

/-- The shared 60-second rate window. -/
def RATE_WINDOW : ℚ := 60

lemma runChecks_all_within (limit : ℕ) (ts : List ℚ) :
    ∀ pre : List ℚ,
      (pre ++ ts).Pairwise (fun a b => b - a < 60) →
      pre.length + ts.length ≤ limit →
      (runChecks limit 60 ts pre).1.all (fun b => b) = true
      ∧ (runChecks limit 60 ts pre).2 = pre ++ ts := by
  induction ts with
  | nil => intro pre _ _; simp [runChecks]
  | cons t ts ih =>
    intro pre hpw hlen
    have hsplit := (List.pairwise_append.mp (by simpa using hpw))
    have hkeep : pre.filter (fun a => decide (t - a < 60)) = pre := by
      apply List.filter_eq_self.mpr
      intro a ha
      have := hsplit.2.2 a ha t (by simp)
      simpa using this
    have hlen' : pre.length + ts.length + 1 ≤ limit := by
      simp only [List.length_cons] at hlen
      omega
    have hstep : rl_check limit 60 t pre = (true, pre ++ [t]) := by
      simp only [rl_check, hkeep, Prod.mk.injEq, decide_eq_true_eq, List.length_append,
        List.length_singleton]
      exact ⟨by omega, trivial⟩
    have hassoc : (pre ++ [t]) ++ ts = pre ++ t :: ts := by simp
    have ih' := ih (pre ++ [t]) (by rw [hassoc]; simpa using hpw)
      (by simp only [List.length_append, List.length_singleton]; omega)
    constructor
    · simp [runChecks, hstep, ih'.1]
    · simp [runChecks, hstep, ih'.2, hassoc]

/-- C7: with limit `N ≥ 1` and the 60-second window, starting from an empty
window: `N` checks at times all within 60 seconds of each other all return
true and retain exactly those `N` timestamps; an `(N+1)`-th check at a time
`u` still within the window of every earlier check returns false; a later
check at a time `v` at least 60 seconds past every recorded timestamp prunes
them all and returns true again; and after any check no retained entry is 60
seconds or older. -/
theorem rate_limiter_claim (N : ℕ) (hN : 1 ≤ N) (ts : List ℚ) (hlen : ts.length = N)
    (u v : ℚ)
    (hwin : (ts ++ [u]).Pairwise (fun a b => b - a < 60))
    (hv : ∀ t ∈ ts ++ [u], 60 ≤ v - t) :
    (runChecks N 60 ts []).1.all (fun b => b) = true
    ∧ (runChecks N 60 ts []).2 = ts
    ∧ (rl_check N 60 u ts).1 = false
    ∧ (rl_check N 60 v (ts ++ [u])).1 = true
    ∧ (rl_check N 60 v (ts ++ [u])).2 = [v]
    ∧ ∀ (now : ℚ) (l : List ℚ), ∀ e ∈ (rl_check N 60 now l).2, now - e < 60 := by
  have hpw_ts : ts.Pairwise (fun a b => b - a < 60) :=
    (List.pairwise_append.mp hwin).1
  have hrun := runChecks_all_within N ts [] (by simpa using hpw_ts) (by simp [hlen])
  have hu_all : ∀ t ∈ ts, u - t < 60 := by
    intro t ht
    have := (List.pairwise_append.mp hwin).2.2 t ht u (by simp)
    simpa using this
  have hkeep_u : ts.filter (fun t => decide (u - t < 60)) = ts := by
    apply List.filter_eq_self.mpr
    intro a ha; simpa using hu_all a ha
  have hdrop_v : (ts ++ [u]).filter (fun t => decide (v - t < 60)) = [] := by
    apply List.filter_eq_nil_iff.mpr
    intro a ha
    have := hv a ha
    simp only [decide_eq_true_eq]
    intro hlt
    linarith
  refine ⟨hrun.1, hrun.2, ?_, ?_, ?_, ?_⟩
  · simp only [rl_check, hkeep_u]
    have : (ts ++ [u]).length = N + 1 := by simp [hlen]
    simp [this]
  · simp [rl_check, hdrop_v, hN]
  · simp [rl_check, hdrop_v]
  · intro now l e he
    simp only [rl_check, List.mem_append, List.mem_filter, List.mem_singleton] at he
    rcases he with ⟨_, hkept⟩ | hnow
    · simpa using hkept
    · rw [hnow]; simp

/-- Witness for C7: limit 2, checks at times 0 and 1 allowed, a third check at
time 2 rejected, a check at time 100 allowed again. -/
theorem rate_limiter_claim_witness :
    (runChecks 2 60 [0, 1] []).1.all (fun b => b) = true
    ∧ (rl_check 2 60 2 [0, 1]).1 = false
    ∧ (rl_check 2 60 100 ([0, 1] ++ [2])).1 = true
    ∧ (4 : ℚ) - 3 < 60 := by
  have h := rate_limiter_claim 2 (by norm_num) [0, 1] rfl 2 100
    (by
      simp only [List.cons_append, List.nil_append, List.pairwise_cons, List.mem_cons,
        List.mem_singleton, List.not_mem_nil]
      norm_num)
    (by
      intro t ht
      fin_cases ht <;> norm_num)
  refine ⟨h.1, h.2.2.1, h.2.2.2.1, ?_⟩
  have h6 := h.2.2.2.2.2 4 [3] 3 (by simp [rl_check]; norm_num)
  simpa using h6

/-! ### Gatekeeper request pipeline (src/gatekeeper.py lines 137-240) -/

/-- The routing strategies (`STRATEGY_PORTS` keys). -/
inductive Strategy where
  | direct
  | random
  | customized
deriving DecidableEq, Repr

/-- `STRATEGY_PORTS`: direct=3306, random=3307, customized=3308. -/
def strategyPort : Strategy → ℕ
  | .direct => 3306
  | .random => 3307
  | .customized => 3308

/-- Mutable Gatekeeper state: the Trusted-Host circuit breaker, the global
`request_counts` map, and the cached strategy. -/
structure GKState where
  breaker : CircuitBreaker
  counts : String → List ℚ
  strategy : Strategy

/-- Inbound request body: presence/value of the `query` field. -/
structure GKRequestData where
  query : Option String
deriving DecidableEq, Repr

/-- Outcome of one `requests.post` attempt towards the Trusted Host: a
successful JSON response, or one of the exception kinds handled by the
service. -/
inductive ForwardOutcome where
  | ok (body : String)
  | timeout
  | connError
  | otherError
deriving DecidableEq, Repr

/-- The JSON envelope returned by `process_request`: either a local error
envelope or the downstream response body returned verbatim. -/
inductive GKResponse where
  | errResp (msg : String)
  | okResp (body : String)
deriving DecidableEq, Repr

/-- `GatekeeperService._check_rate_limit` acting on the `request_counts`
map for one client ip. -/
def gk_check_rate_limit (now : ℚ) (client : String) (counts : String → List ℚ) :
    Bool × (String → List ℚ) :=
  let r := rl_check GK_RATE_LIMIT RATE_WINDOW now (counts client)
  (r.1, fun ip => if ip = client then r.2 else counts ip)

/-- Flask's `request.content_length and request.content_length > 1024 * 1024`. -/
def contentLengthTooLarge : Option ℕ → Bool
  | some n => n > 1024 * 1024
  | none => false

/-- The `for attempt in range(3)` forwarding loop: on the first success the
breaker records a success and the body is returned; if all three attempts
fail, the breaker records a failure and the re-raised exception is converted
by the outer handlers into the matching error envelope. -/
def gkForwardAttempts (cb : CircuitBreaker) (now : ℚ) (fwd : ℕ → ForwardOutcome) :
    GKResponse × CircuitBreaker :=
  match fwd 0 with
  | .ok b => (.okResp b, record_success cb)
  | _ =>
    match fwd 1 with
    | .ok b => (.okResp b, record_success cb)
    | _ =>
      match fwd 2 with
      | .ok b => (.okResp b, record_success cb)
      | .timeout => (.errResp "Request timed out", record_failure now cb)
      | .connError => (.errResp "Connection to internal service failed", record_failure now cb)
      | .otherError => (.errResp "Internal server error", record_failure now cb)

/-- `GatekeeperService.process_request` (src/gatekeeper.py lines 155-240):
breaker check, then rate-limit check, then request-format check, then size
check, then query validation, then the strategy/port attachment and the
forwarding loop (abstracted by the `fwd` oracle). -/
def process_request (st : GKState) (now : ℚ) (reqData : Option GKRequestData)
    (contentLength : Option ℕ) (client : String)
    (fwd : ℕ → ForwardOutcome) : GKResponse × GKState :=
  let ce := can_execute now st.breaker
  let st1 : GKState := { st with breaker := ce.2 }
  if ce.1 = false then (.errResp "Service temporarily unavailable", st1)
  else
    let rl := gk_check_rate_limit now client st1.counts
    let st2 : GKState := { st1 with counts := rl.2 }
    if rl.1 = false then (.errResp "Rate limit exceeded", st2)
    else
      match reqData with
      | none => (.errResp "Invalid request format. Must include 'query' field.", st2)
      | some rd =>
        match rd.query with
        | none => (.errResp "Invalid request format. Must include 'query' field.", st2)
        | some q =>
          if contentLengthTooLarge contentLength then (.errResp "Request too large", st2)
          else
            let vr := validate_query q
            if vr.1 = false then (.errResp (vr.2.getD ""), st2)
            else
              let fr := gkForwardAttempts st2.breaker now fwd
              (fr.1, { st2 with breaker := fr.2 })

/-- C2 (amended): the Trusted-Host circuit breaker is consulted before the
caller's rate limit; a request rejected because the breaker is open is
answered with the unavailable envelope and leaves every client's rate window
untouched — no timestamp is recorded for the caller. -/
theorem gatekeeper_breaker_before_rate (st : GKState) (now : ℚ)
    (reqData : Option GKRequestData) (contentLength : Option ℕ) (client : String)
    (fwd : ℕ → ForwardOutcome)
    (h : (can_execute now st.breaker).1 = false) :
    (process_request st now reqData contentLength client fwd).1
      = .errResp "Service temporarily unavailable"
    ∧ ∀ ip, (process_request st now reqData contentLength client fwd).2.counts ip
        = st.counts ip := by
  constructor
  · simp [process_request, h]
  · intro ip
    simp [process_request, h]

/-- Witness for the amended C2 theorem: an open breaker with an unexpired
timeout rejects the request and the caller's window stays empty. -/
theorem gatekeeper_breaker_before_rate_witness :
    (process_request
        { breaker := { failures := 5, last_failure_time := 0, state := .opened,
                       threshold := 5, timeout := 60 },
          counts := fun _ => [], strategy := .direct }
        10 (some { query := some "SELECT 1" }) none "203.0.113.7" (fun _ => .ok "resp")).1
      = .errResp "Service temporarily unavailable"
    ∧ (process_request
        { breaker := { failures := 5, last_failure_time := 0, state := .opened,
                       threshold := 5, timeout := 60 },
          counts := fun _ => [], strategy := .direct }
        10 (some { query := some "SELECT 1" }) none "203.0.113.7" (fun _ => .ok "resp")).2.counts
        "203.0.113.7"
      = ([] : List ℚ) := by
  have h := gatekeeper_breaker_before_rate
    { breaker := { failures := 5, last_failure_time := 0, state := .opened,
                   threshold := 5, timeout := 60 },
      counts := fun _ => [], strategy := .direct }
    10 (some { query := some "SELECT 1" }) none "203.0.113.7" (fun _ => .ok "resp")
    (by norm_num [can_execute])
  exact ⟨h.1, h.2 "203.0.113.7"⟩

/-- C2 counterexample to the claim as stated: with the breaker open (5
failures at time 0, checked at time 10, timeout 60 unexpired) the request is
rejected as unavailable, yet the caller's rate window is still empty — its
timestamp was NOT recorded, because the code consults the breaker before the
rate limit. -/
theorem gatekeeper_rate_not_recorded_on_breaker_reject :
    (process_request
        { breaker := { failures := 5, last_failure_time := 0, state := .opened,
                       threshold := 5, timeout := 60 },
          counts := fun _ => [], strategy := .direct }
        10 (some { query := some "SELECT 1" }) none "198.51.100.9" (fun _ => .ok "resp")).1
      = .errResp "Service temporarily unavailable"
    ∧ (process_request
        { breaker := { failures := 5, last_failure_time := 0, state := .opened,
                       threshold := 5, timeout := 60 },
          counts := fun _ => [], strategy := .direct }
        10 (some { query := some "SELECT 1" }) none "198.51.100.9" (fun _ => .ok "resp")).2.counts
        "198.51.100.9"
      ≠ [(10 : ℚ)] := by
  have hce : (can_execute 10
      { failures := 5, last_failure_time := 0, state := .opened,
        threshold := 5, timeout := 60 }).1 = false := by
    norm_num [can_execute]
  constructor
  · simp [process_request, hce]
  · simp [process_request, hce]

/-! ### Proxy routing engine (src/proxy.py) -/

/-- The JSON result dict built by `ProxyManager._execute_query`:
`{"status": "success", "result": ...}` or `{"status": "error", "message": ...}`. -/
inductive ExecResult where
  | success (rows : Option String)
  | error (msg : String)
deriving DecidableEq, Repr

/-- Outcome of calling `_execute_query` viewed as an opaque callable: a
normal return, or a raised exception (handled by the surrounding
`try`/`except` blocks). -/
inductive ExecOutcome where
  | ok (r : ExecResult)
  | exn (msg : String)
deriving DecidableEq, Repr

/-- `result["status"] == "success"`. -/
def isSuccessR : ExecResult → Bool
  | .success _ => true
  | .error _ => false

/-- `_get_connection`'s port choice:
`self.strategy_ports.get(strategy, 3306) if strategy else 3306`. -/
def connPort : Option Strategy → ℕ
  | some s => strategyPort s
  | none => 3306

/-- A `ProxyManager` instance together with the oracles for its environment:
`probe w` is the measured connect latency of the `customized` probe to worker
`w` (`none` = failed probe = infinite latency), `randIdx` resolves
`random.choice`, and `dbExec host port query` is the outcome of
`_execute_query` against the data tier. -/
structure ProxyEnv where
  manager : String
  workers : List String
  strategy : Strategy
  randIdx : ℕ
  probe : String → Option ℚ
  dbExec : String → ℕ → String → ExecOutcome

/-- Strict comparison of measured latencies, with a failed probe treated as
infinite latency (`float('inf')`). -/
def latLt : Option ℚ → Option ℚ → Bool
  | some a, some b => a < b
  | some _, none => true
  | none, _ => false

/-- One step of Python's `min(response_times, key=response_times.get)`:
keep the current best unless the next entry is strictly smaller (so ties
resolve to the earliest worker). -/
def minStep (best q : String × Option ℚ) : String × Option ℚ :=
  if latLt q.2 best.2 then q else best

/-- `ProxyManager._get_fastest_worker` (src/proxy.py lines 149-165). -/
def getFastestWorker (workers : List String) (probe : String → Option ℚ) : String :=
  let rts := workers.map (fun w => (w, probe w))
  if rts.all (fun p => p.2.isNone) then workers.headD ""
  else
    match rts with
    | [] => workers.headD ""
    | p :: ps => (ps.foldl minStep p).1

/-- `ProxyManager._select_read_host` (src/proxy.py lines 78-91);
`random.choice` is resolved by the `randIdx` oracle. -/
def selectReadHost (env : ProxyEnv) : String :=
  match env.strategy with
  | .direct => env.workers.headD ""
  | .random => env.workers.getD (env.randIdx % env.workers.length) ""
  | .customized => getFastestWorker env.workers env.probe

/-- One iteration of `_replicate_to_workers`: execute on the worker at the
default port; the result — and any exception — is logged and discarded. -/
def replicateStep (env : ProxyEnv) (q : String) (w : String) : String × ℕ :=
  let _ := env.dbExec w 3306 q
  (w, 3306)

/-- `ProxyManager._replicate_to_workers` (src/proxy.py lines 93-102),
returning the trace of (host, port) execution attempts in order. -/
def replicateToWorkers (env : ProxyEnv) (q : String) : List (String × ℕ) :=
  env.workers.map (replicateStep env q)

/-- `ProxyManager.route_request` (src/proxy.py lines 51-76), returning the
client-visible result together with the ordered trace of every
`_execute_query` invocation as (host, port).  Writes run on the manager with
no strategy (port 3306); reads run on the selected host with the current
strategy's port, falling back to the manager (again with no strategy) when the
chosen worker returns an error; exceptions are converted to the generic
internal error by the outer handler. -/
def route_request (env : ProxyEnv) (q : String) (is_write : Bool) :
    ExecResult × List (String × ℕ) :=
  if is_write then
    match env.dbExec env.manager 3306 q with
    | .exn _ => (.error "Internal error in Proxy", [(env.manager, 3306)])
    | .ok r =>
      if isSuccessR r then (r, (env.manager, 3306) :: replicateToWorkers env q)
      else (r, [(env.manager, 3306)])
  else
    let target := selectReadHost env
    let sPort := strategyPort env.strategy
    match env.dbExec target sPort q with
    | .exn _ => (.error "Internal error in Proxy", [(target, sPort)])
    | .ok r =>
      if isSuccessR r then (r, [(target, sPort)])
      else
        if target ≠ env.manager then
          match env.dbExec env.manager 3306 q with
          | .exn _ => (.error "Internal error in Proxy", [(target, sPort), (env.manager, 3306)])
          | .ok r2 => (r2, [(target, sPort), (env.manager, 3306)])
        else (r, [(target, sPort)])

/-- C4: when the manager execution returns normally, a write returns exactly
the manager's result; the workers are each attempted in sequence exactly when
the manager result is a success; and per-worker replication outcomes (results
or exceptions) are swallowed and never reach the returned value. -/
theorem proxy_write_routing (env : ProxyEnv) (q : String) (r : ExecResult)
    (h : env.dbExec env.manager 3306 q = .ok r) :
    (route_request env q true).1 = r
    ∧ (route_request env q true).2
        = (env.manager, 3306) :: (if isSuccessR r then replicateToWorkers env q else [])
    ∧ replicateToWorkers env q = env.workers.map (fun w => (w, 3306)) := by
  refine ⟨?_, ?_, ?_⟩
  · simp only [route_request, h]
    cases r <;> simp [isSuccessR]
  · simp only [route_request, h]
    cases r <;> simp [isSuccessR]
  · simp [replicateToWorkers, replicateStep]

/-- Witness for C4 at a concrete environment in which every worker
replication fails with an exception: the client still sees the manager's
success. -/
theorem proxy_write_routing_witness :
    (route_request
        { manager := "mgr", workers := ["w1", "w2"], strategy := .direct, randIdx := 0,
          probe := fun _ => none,
          dbExec := fun h _ _ => if h = "mgr" then .ok (.success none) else .exn "boom" }
        "INSERT INTO t VALUES (1)" true).1 = ExecResult.success none
    ∧ (route_request
        { manager := "mgr", workers := ["w1", "w2"], strategy := .direct, randIdx := 0,
          probe := fun _ => none,
          dbExec := fun h _ _ => if h = "mgr" then .ok (.success none) else .exn "boom" }
        "INSERT INTO t VALUES (1)" true).2
      = ("mgr", 3306) :: (if isSuccessR (.success none) then
          replicateToWorkers
            { manager := "mgr", workers := ["w1", "w2"], strategy := .direct, randIdx := 0,
              probe := fun _ => none,
              dbExec := fun h _ _ => if h = "mgr" then .ok (.success none) else .exn "boom" }
            "INSERT INTO t VALUES (1)" else [])
    ∧ replicateToWorkers
        { manager := "mgr", workers := ["w1", "w2"], strategy := .direct, randIdx := 0,
          probe := fun _ => none,
          dbExec := fun h _ _ => if h = "mgr" then .ok (.success none) else .exn "boom" }
        "INSERT INTO t VALUES (1)"
      = ["w1", "w2"].map (fun w => (w, 3306)) :=
  proxy_write_routing
    { manager := "mgr", workers := ["w1", "w2"], strategy := .direct, randIdx := 0,
      probe := fun _ => none,
      dbExec := fun h _ _ => if h = "mgr" then .ok (.success none) else .exn "boom" }
    "INSERT INTO t VALUES (1)" (.success none) (by simp)

lemma map_port_all_3306 (ws : List String) :
    (ws.map (fun w => (w, (3306 : ℕ)))).all (fun p => p.2 == 3306) = true := by
  induction ws with
  | nil => rfl
  | cons w ws ih => simp [ih]

/-- C5 (amended): only the initial read execution uses the active strategy's
port (and the customized probes use 3308); every write execution on the
manager, every replication execution on a worker, and the manager fallback
after a failed read use the default port 3306 regardless of the active
strategy. -/
theorem proxy_port_usage (env : ProxyEnv) (q : String) :
    ((route_request env q true).2.all (fun p => p.2 == 3306)) = true
    ∧ (route_request env q false).2.head?
        = some (selectReadHost env, strategyPort env.strategy)
    ∧ (((route_request env q false).2.tail).all (fun p => p.2 == 3306)) = true := by
  refine ⟨?_, ?_, ?_⟩
  · simp only [route_request]
    cases hm : env.dbExec env.manager 3306 q with
    | exn m => simp
    | ok r =>
      cases r <;>
        simp [isSuccessR, replicateToWorkers, replicateStep, map_port_all_3306 env.workers]
  · simp only [route_request]
    cases ht : env.dbExec (selectReadHost env) (strategyPort env.strategy) q with
    | exn m => simp
    | ok r =>
      cases r with
      | success rows => simp [isSuccessR]
      | error m =>
        simp only [isSuccessR, Bool.false_eq_true, if_false]
        split
        · cases env.dbExec env.manager 3306 q <;> simp
        · simp
  · simp only [route_request]
    cases ht : env.dbExec (selectReadHost env) (strategyPort env.strategy) q with
    | exn m => simp
    | ok r =>
      cases r with
      | success rows => simp [isSuccessR]
      | error m =>
        simp only [isSuccessR, Bool.false_eq_true, if_false]
        split
        · cases env.dbExec env.manager 3306 q <;> simp
        · simp

/-- C5 counterexample to the claim as stated: with active strategy `random`
(port 3307), a successful write executes on the manager and replicates to the
worker, and both executions use port 3306 — not the strategy port —, so it is
false that every query executed by the Proxy uses the strategy-determined
port. -/
theorem proxy_write_ignores_strategy_port :
    (route_request
        { manager := "mgr", workers := ["w1"], strategy := .random, randIdx := 0,
          probe := fun _ => none, dbExec := fun _ _ _ => .ok (.success none) }
        "INSERT INTO t VALUES (1)" true).2
      = [("mgr", 3306), ("w1", 3306)]
    ∧ strategyPort Strategy.random = 3307
    ∧ ((route_request
        { manager := "mgr", workers := ["w1"], strategy := .random, randIdx := 0,
          probe := fun _ => none, dbExec := fun _ _ _ => .ok (.success none) }
        "INSERT INTO t VALUES (1)" true).2.all
          (fun p => p.2 == strategyPort Strategy.random)) = false := by
  refine ⟨rfl, rfl, rfl⟩

lemma latLt_irrefl (a : Option ℚ) : latLt a a = false := by
  cases a with
  | none => rfl
  | some x => simp [latLt]

lemma latLt_trans {a b c : Option ℚ} (h1 : latLt a b = true) (h2 : latLt b c = true) :
    latLt a c = true := by
  cases a <;> cases b <;> cases c <;> simp_all [latLt] <;> linarith

lemma latLt_of_lt_of_not_lt {a b c : Option ℚ} (h1 : latLt a b = true)
    (h2 : latLt a c = false) : latLt c b = true := by
  cases a <;> cases b <;> cases c <;> simp_all [latLt] <;> linarith

/-- The fold implementing Python's first-minimum `min(...)`: the result is one
of the candidates and no candidate's latency is strictly smaller. -/
lemma foldl_minStep_spec (ps : List (String × Option ℚ)) :
    ∀ p : String × Option ℚ,
      (ps.foldl minStep p = p ∨ ps.foldl minStep p ∈ ps)
      ∧ latLt p.2 (ps.foldl minStep p).2 = false
      ∧ ∀ q ∈ ps, latLt q.2 (ps.foldl minStep p).2 = false := by
  induction ps with
  | nil =>
    intro p
    exact ⟨Or.inl rfl, latLt_irrefl p.2, by simp⟩
  | cons h t ih =>
    intro p
    obtain ⟨hmem, hbest, hall⟩ := ih (minStep p h)
    have hres : (h :: t).foldl minStep p = t.foldl minStep (minStep p h) := rfl
    by_cases hc : latLt h.2 p.2 = true
    · have hstep : minStep p h = h := by simp [minStep, hc]
      rw [hstep] at hmem hbest hall hres
      refine ⟨?_, ?_, ?_⟩
      · rw [hres]
        rcases hmem with heq | hin
        · rw [heq]
          exact Or.inr (List.mem_cons_self h t)
        · exact Or.inr (List.mem_cons_of_mem h hin)
      · rw [hres]
        cases hpr : latLt p.2 (t.foldl minStep h).2 with
        | false => rfl
        | true =>
          exfalso
          have h2 := latLt_trans hc hpr
          rw [h2] at hbest
          exact Bool.noConfusion hbest
      · intro q hq
        rw [hres]
        rcases List.mem_cons.mp hq with rfl | hin
        · exact hbest
        · exact hall q hin
    · have hcf : latLt h.2 p.2 = false := by simpa using hc
      have hstep : minStep p h = p := by simp [minStep, hcf]
      rw [hstep] at hmem hbest hall hres
      refine ⟨?_, ?_, ?_⟩
      · rw [hres]
        rcases hmem with heq | hin
        · exact Or.inl heq
        · exact Or.inr (List.mem_cons_of_mem h hin)
      · rw [hres]
        exact hbest
      · intro q hq
        rw [hres]
        rcases List.mem_cons.mp hq with rfl | hin
        · cases hqr : latLt q.2 (t.foldl minStep p).2 with
          | false => rfl
          | true =>
            exfalso
            have h2 := latLt_of_lt_of_not_lt hqr hcf
            rw [h2] at hbest
            exact Bool.noConfusion hbest
        · exact hall q hin

/-- Core properties of `_get_fastest_worker` for a non-empty worker list. -/
lemma getFastestWorker_spec (w : String) (ws : List String) (probe : String → Option ℚ) :
    ((∀ x ∈ w :: ws, probe x = none) → getFastestWorker (w :: ws) probe = w)
    ∧ ((∃ x ∈ w :: ws, (probe x).isSome) →
        getFastestWorker (w :: ws) probe ∈ w :: ws
        ∧ (probe (getFastestWorker (w :: ws) probe)).isSome = true
        ∧ ∀ x ∈ w :: ws, latLt (probe x) (probe (getFastestWorker (w :: ws) probe)) = false) := by
  have hunfold : getFastestWorker (w :: ws) probe
      = if (((w, probe w) :: ws.map (fun x => (x, probe x))).all (fun p => p.2.isNone)) = true
        then w
        else ((ws.map (fun x => (x, probe x))).foldl minStep (w, probe w)).1 := rfl
  constructor
  · intro hall
    have hcond : (((w, probe w) :: ws.map (fun x => (x, probe x))).all
        (fun p => p.2.isNone)) = true := by
      rw [List.all_eq_true]
      intro pr hpr
      rcases List.mem_cons.mp hpr with rfl | hin
      · simp [hall w (List.mem_cons_self w ws)]
      · obtain ⟨x, hx, rfl⟩ := List.mem_map.mp hin
        simp [hall x (List.mem_cons_of_mem w hx)]
    rw [hunfold, if_pos hcond]
  · intro hex
    have hcond : (((w, probe w) :: ws.map (fun x => (x, probe x))).all
        (fun p => p.2.isNone)) = false := by
      obtain ⟨x, hx, hxs⟩ := hex
      rw [Bool.eq_false_iff]
      intro hcontra
      rw [List.all_eq_true] at hcontra
      have hmem : ((x, probe x) : String × Option ℚ)
          ∈ ((w, probe w) :: ws.map (fun y => (y, probe y))) := by
        rcases List.mem_cons.mp hx with rfl | hin
        · exact List.mem_cons_self _ _
        · exact List.mem_cons_of_mem _ (List.mem_map.mpr ⟨x, hin, rfl⟩)
      have hnone := hcontra _ hmem
      simp only [Option.isNone_iff_eq_none] at hnone
      rw [hnone] at hxs
      simp at hxs
    have hres : getFastestWorker (w :: ws) probe
        = ((ws.map (fun x => (x, probe x))).foldl minStep (w, probe w)).1 := by
      rw [hunfold, if_neg (by simp [hcond])]
    obtain ⟨hmem, hbest, hall⟩ :=
      foldl_minStep_spec (ws.map (fun x => (x, probe x))) (w, probe w)
    have hRfacts : ((ws.map (fun x => (x, probe x))).foldl minStep (w, probe w)).1 ∈ w :: ws
        ∧ ((ws.map (fun x => (x, probe x))).foldl minStep (w, probe w)).2
          = probe ((ws.map (fun x => (x, probe x))).foldl minStep (w, probe w)).1 := by
      rcases hmem with heq | hin
      · rw [heq]
        exact ⟨List.mem_cons_self w ws, rfl⟩
      · obtain ⟨x, hx, heq⟩ := List.mem_map.mp hin
        rw [← heq]
        exact ⟨List.mem_cons_of_mem w hx, rfl⟩
    have hmin : ∀ x ∈ w :: ws,
        latLt (probe x)
          ((ws.map (fun x => (x, probe x))).foldl minStep (w, probe w)).2 = false := by
      intro x hx
      rcases List.mem_cons.mp hx with rfl | hin
      · exact hbest
      · exact hall (x, probe x) (List.mem_map.mpr ⟨x, hin, rfl⟩)
    have hsome :
        (probe ((ws.map (fun x => (x, probe x))).foldl minStep (w, probe w)).1).isSome
          = true := by
      obtain ⟨x, hx, hxs⟩ := hex
      cases hprobe : probe ((ws.map (fun y => (y, probe y))).foldl minStep (w, probe w)).1 with
      | some v => rfl
      | none =>
        exfalso
        have hlt := hmin x hx
        rw [hRfacts.2, hprobe] at hlt
        cases hpx : probe x with
        | none =>
          rw [hpx] at hxs
          simp at hxs
        | some vx =>
          rw [hpx] at hlt
          simp [latLt] at hlt
    refine ⟨?_, ?_, ?_⟩
    · rw [hres]
      exact hRfacts.1
    · rw [hres]
      exact hsome
    · intro x hx
      rw [hres, ← hRfacts.2]
      exact hmin x hx

/-- C8: read-host selection.  Under strategy `direct` the first configured
worker is always selected.  Under strategy `customized`, if every probe fails
the first worker is selected; if some probe succeeds, the selected worker is
one of the workers, its probe succeeded (never a probe-failed worker while
another succeeded), and no worker has a strictly smaller measured latency. -/
theorem read_host_selection :
    (∀ env : ProxyEnv, env.strategy = .direct → env.workers ≠ [] →
      selectReadHost env = env.workers.headD "")
    ∧ (∀ env : ProxyEnv, env.strategy = .customized →
        ((∀ x ∈ env.workers, env.probe x = none) → env.workers ≠ [] →
          selectReadHost env = env.workers.headD "")
        ∧ ((∃ x ∈ env.workers, (env.probe x).isSome) →
            selectReadHost env ∈ env.workers
            ∧ (env.probe (selectReadHost env)).isSome = true
            ∧ ∀ x ∈ env.workers, latLt (env.probe x) (env.probe (selectReadHost env)) = false)) := by
  constructor
  · intro env hstrat _
    simp [selectReadHost, hstrat]
  · intro env hstrat
    constructor
    · intro hall hne
      obtain ⟨w, ws, hcons⟩ := List.exists_cons_of_ne_nil hne
      have hspec := (getFastestWorker_spec w ws env.probe).1 (by rw [← hcons]; exact hall)
      simp [selectReadHost, hstrat, hcons, hspec]
    · intro hex
      have hne : env.workers ≠ [] := by
        obtain ⟨x, hx, _⟩ := hex
        exact List.ne_nil_of_mem hx
      obtain ⟨w, ws, hcons⟩ := List.exists_cons_of_ne_nil hne
      have hspec := (getFastestWorker_spec w ws env.probe).2 (by rw [← hcons]; exact hex)
      have hsel : selectReadHost env = getFastestWorker (w :: ws) env.probe := by
        simp [selectReadHost, hstrat, hcons]
      rw [hsel, hcons]
      exact hspec

/-- Witness for C8 at concrete environments: direct selection picks `w1`;
with all probes failed customized selection picks `w1`; with `w1` failed and
`w2` at latency 1 customized selection picks a successfully probed worker. -/
theorem read_host_selection_witness :
    selectReadHost
        { manager := "mgr", workers := ["w1", "w2"], strategy := .direct, randIdx := 0,
          probe := fun _ => none, dbExec := fun _ _ _ => .ok (.success none) }
      = (["w1", "w2"] : List String).headD ""
    ∧ selectReadHost
        { manager := "mgr", workers := ["w1", "w2"], strategy := .customized, randIdx := 0,
          probe := fun _ => none, dbExec := fun _ _ _ => .ok (.success none) }
      = (["w1", "w2"] : List String).headD ""
    ∧ ((fun w => if w = "w2" then some (1 : ℚ) else none)
        (selectReadHost
          { manager := "mgr", workers := ["w1", "w2"], strategy := .customized, randIdx := 0,
            probe := fun w => if w = "w2" then some (1 : ℚ) else none,
            dbExec := fun _ _ _ => .ok (.success none) })).isSome = true := by
  refine ⟨?_, ?_, ?_⟩
  · exact read_host_selection.1
      { manager := "mgr", workers := ["w1", "w2"], strategy := .direct, randIdx := 0,
        probe := fun _ => none, dbExec := fun _ _ _ => .ok (.success none) }
      rfl (by simp)
  · exact (read_host_selection.2
      { manager := "mgr", workers := ["w1", "w2"], strategy := .customized, randIdx := 0,
        probe := fun _ => none, dbExec := fun _ _ _ => .ok (.success none) }
      rfl).1 (fun x _ => rfl) (by simp)
  · exact ((read_host_selection.2
      { manager := "mgr", workers := ["w1", "w2"], strategy := .customized, randIdx := 0,
        probe := fun w => if w = "w2" then some (1 : ℚ) else none,
        dbExec := fun _ _ _ => .ok (.success none) }
      rfl).2 ⟨"w2", by simp, by simp⟩).2.1

/-! ### Trusted Host relay (src/trusted_host.py lines 59-170) -/

/-- `STRATEGY_PORTS.get strategy` as a string-keyed lookup, as used by the
Trusted Host on the raw JSON `strategy` field. -/
def strategyPortsGet : String → Option ℕ :=
  fun s =>
    if s = "direct" then some 3306
    else if s = "random" then some 3307
    else if s = "customized" then some 3308
    else none

/-- An inbound Trusted-Host request body: the `query`, `strategy` and `port`
JSON fields, each possibly absent. -/
structure THRequest where
  query : Option String
  strategy : Option String
  port : Option ℕ
deriving DecidableEq, Repr

/-- The payload mutation of `forward_request` (src/trusted_host.py lines
113-118): `strategy = request_data.get('strategy', self.current_strategy)`,
`port = STRATEGY_PORTS.get(strategy, STRATEGY_PORTS['direct'])`,
`request_data['port'] = port`. -/
def th_forward_payload (current_strategy : String) (rd : THRequest) : THRequest :=
  let strat := rd.strategy.getD current_strategy
  let port := (strategyPortsGet strat).getD 3306
  { rd with port := some port }

/-- `TrustedHostService.forward_request` (src/trusted_host.py lines 95-170)
projected onto its data flow: returns the payload posted to the Proxy, or
`none` when the request is rejected before forwarding.  `cbAllows` stands for
`self.circuit_breaker.can_execute()` and `healthOk` for
`self._check_proxy_health()`; the retry loop re-posts the same payload, so the
forwarded payload is independent of the attempt number. -/
def forward_request (cbAllows healthOk : Bool) (current_strategy : String)
    (reqData : Option THRequest) : Option THRequest :=
  if cbAllows = false then none
  else
    match reqData with
    | none => none
    | some rd =>
      if rd.query.isNone then none
      else if healthOk = false then none
      else some (th_forward_payload current_strategy rd)

/-- C9 (amended): for any two inbound requests identical except for the
`port` field, the payloads forwarded to the Proxy carry the same port, namely
the one recomputed from the request's `strategy` field — falling back to the
service's cached current strategy when the field is missing, and to 3306 when
the resulting strategy name is unrecognized.  The inbound `port` value has no
influence on the forwarded port. -/
theorem trusted_host_port_recompute (cbAllows healthOk : Bool) (cs : String)
    (r1 r2 : THRequest) (hq : r1.query = r2.query) (hs : r1.strategy = r2.strategy) :
    (forward_request cbAllows healthOk cs (some r1)).map THRequest.port
      = (forward_request cbAllows healthOk cs (some r2)).map THRequest.port
    ∧ (th_forward_payload cs r1).port
      = some ((strategyPortsGet (r1.strategy.getD cs)).getD 3306) := by
  constructor
  · simp only [forward_request, th_forward_payload, hq, hs]
  · rfl

/-- Witness for C9: two requests with ports 9999 and 1234 (strategy
`customized`) forward the same recomputed port 3308. -/
theorem trusted_host_port_recompute_witness :
    (forward_request true true "direct"
        (some { query := some "SELECT 1", strategy := some "customized", port := some 9999 })).map
        THRequest.port
      = (forward_request true true "direct"
        (some { query := some "SELECT 1", strategy := some "customized", port := some 1234 })).map
        THRequest.port
    ∧ (th_forward_payload "direct"
        { query := some "SELECT 1", strategy := some "customized", port := some 9999 }).port
      = some ((strategyPortsGet ((some "customized").getD "direct")).getD 3306) :=
  trusted_host_port_recompute true true "direct"
    { query := some "SELECT 1", strategy := some "customized", port := some 9999 }
    { query := some "SELECT 1", strategy := some "customized", port := some 1234 }
    rfl rfl

/-- C9 counterexample to the claim as stated: when the inbound request has no
`strategy` field but the service's cached strategy is `random`, the forwarded
payload carries port 3307, not the direct port 3306 claimed for a missing
strategy field. -/
theorem trusted_host_missing_strategy_not_direct :
    (forward_request true true "random"
        (some { query := some "SELECT 1", strategy := none, port := some 9999 })).map
        THRequest.port
      = some (some 3307)
    ∧ (3307 : ℕ) ≠ 3306 := by
  refine ⟨rfl, by decide⟩

end CloudPatterns
